import Mathlib

/-!
Shallow embedding of the concurrent alarm scheduler (new_alarm_victor.c and
new_alarm_cond.c): the ordered alarm registry, the change queue, the monitor
pass (expiry + change reconciliation), the display-slot dispatcher, and the
display-worker scan loop. Times, ids and groups are modelled as `Int`
(C `int`/`time_t`); C strings are modelled as `List Char`.
-/

namespace AlarmSpec

/-- The `alarm_tag` struct of new_alarm_victor.c. -/
structure Alarm where
  seconds : Int
  alarm_id : Int
  group_id : Int
  time : Int
  message : List Char
  assigned_to_thread : Bool
  original_group_id : Int
  message_changed : Bool
deriving DecidableEq, Repr

/-- The `change_alarm_tag` struct of new_alarm_victor.c. -/
structure ChangeAlarm where
  alarm_id : Int
  group_id : Int
  time : Int
  message : List Char
deriving DecidableEq, Repr

/-- The `removed_alarm_tag` struct of new_alarm_victor.c. -/
structure RemovedAlarm where
  alarm_id : Int
  group_id : Int
  removal_time : Int
  message : List Char
deriving DecidableEq, Repr

/-- One entry of the `display_threads` table (`display_thread_info_tag`). -/
structure Slot where
  group_id : Int
  active : Bool
  alarm_count : Nat
deriving DecidableEq, Repr

/-- The observable event lines the program prints, by content. -/
inductive Event where
  | inserted (id group : Int) (msg : List Char)
  | assigned (id group : Int)
  | createdWorker (id group : Int)
  | removed (id group : Int) (msg : List Char)
  | changed (id group : Int) (msg : List Char)
  | invalidChange (id group : Int) (msg : List Char)
  | stoppedRemoved (id group : Int)
  | stoppedChangedGroup (id oldGroup : Int)
  | changedMessage (id group : Int)
  | rendered (id group : Int) (timeLeft : Int) (msg : List Char)
  | exiting (group : Int)
deriving DecidableEq, Repr

/-- `e` is a "Changed Alarm" event line. -/
def isChangedEv : Event → Bool
  | Event.changed _ _ _ => true
  | _ => false

/-- `e` is an "Invalid Change Alarm Request" event line. -/
def isInvalidEv : Event → Bool
  | Event.invalidChange _ _ _ => true
  | _ => false

/-- `e` is a display-worker "exiting" event line. -/
def isExitingEv : Event → Bool
  | Event.exiting _ => true
  | _ => false

namespace Victor

/-- `alarm_insert` of new_alarm_victor.c, list part: walk the list and place
the new alarm before the first entry whose `alarm_id` is `>=` the new one;
append at the end otherwise. -/
def alarm_insert (a : Alarm) : List Alarm → List Alarm
  | [] => [a]
  | b :: rest =>
    if a.alarm_id ≤ b.alarm_id then a :: b :: rest
    else b :: alarm_insert a rest

/-- `alarm_insert` of new_alarm_victor.c including the wake-up protocol:
it always issues one `pthread_cond_signal`, and a second one (updating
`current_alarm`) when the monitor is idle (`current_alarm == 0`) or the new
alarm's time beats the current wait target. Returns the new list, the new
`current_alarm` and the number of signals sent. -/
def alarm_insert_full (a : Alarm) (l : List Alarm) (cur : Int) :
    List Alarm × Int × Nat :=
  let l' := alarm_insert a l
  if cur = 0 ∨ a.time < cur then (l', a.time, 2) else (l', cur, 1)

/-- The expiry loop at the top of `alarm_thread` in new_alarm_victor.c:
`while (alarm_list != NULL && alarm_list->time <= now)` pop the head.
Returns (removed-in-order, remaining list). -/
def expire_loop (now : Int) : List Alarm → List Alarm × List Alarm
  | [] => ([], [])
  | a :: rest =>
    if a.time ≤ now then
      let p := expire_loop now rest
      (a :: p.1, p.2)
    else ([], a :: rest)

/-- Construction of a `removed_alarm_t` entry from an expired alarm
(`strncpy` bounded at 128 bytes). -/
def to_removed (now : Int) (a : Alarm) : RemovedAlarm :=
  { alarm_id := a.alarm_id, group_id := a.group_id, removal_time := now
    message := a.message.take 128 }

/-- The first-fit scan of `assign_alarm_to_display_thread`: find the first
slot that is active, has the alarm's group, and holds fewer than 2 alarms;
increment its count. `none` when no slot qualifies. -/
def try_assign (g : Int) : List Slot → Option (List Slot)
  | [] => none
  | s :: rest =>
    if s.active = true ∧ s.group_id = g ∧ s.alarm_count < 2 then
      some ({ s with alarm_count := s.alarm_count + 1 } :: rest)
    else (try_assign g rest).map (fun r => s :: r)

/-- `create_display_thread` of new_alarm_victor.c: claim the first inactive
slot for the group with count 1; when every slot is active the loop falls
through and the table is left unchanged. -/
def create_slot (g : Int) : List Slot → List Slot
  | [] => []
  | s :: rest =>
    if s.active = false then { group_id := g, active := true, alarm_count := 1 } :: rest
    else s :: create_slot g rest

/-- `assign_alarm_to_display_thread` of new_alarm_victor.c: first-fit
assignment to an existing slot, else `create_display_thread` (which may do
nothing on a full table) plus setting `assigned_to_thread`; the returned
`Bool` is true when the create branch was taken. -/
def dispatch (aId g : Int) (slots : List Slot) : List Slot × Bool × List Event :=
  match try_assign g slots with
  | some slots' => (slots', false, [Event.assigned aId g])
  | none => (create_slot g slots, true, [Event.createdWorker aId g])

/-- The slot table after one dispatcher invocation for group `g`. -/
def dispatchSlots (g : Int) (slots : List Slot) : List Slot :=
  (dispatch 0 g slots).1

/-- Three sequential dispatcher invocations for group `g` (three
`Start_Alarm` admissions of the same group). -/
def assign_thrice (g : Int) (slots : List Slot) : List Slot :=
  dispatchSlots g (dispatchSlots g (dispatchSlots g slots))

/-- The body of the change-application branch in `alarm_thread` for the
alarm that matches the request: overwrite the group (remembering the old one
in `original_group_id` and re-running the dispatcher) only when it differs,
overwrite the message (flagging `message_changed`, `strncpy` bounded at 128)
only when it differs, and overwrite the time unconditionally; emit the
"Changed" event with the updated fields. -/
def change_update_core (ch : ChangeAlarm) (slots : List Slot) (a : Alarm) :
    Alarm × List Slot × List Event :=
  let step1 :=
    if a.group_id ≠ ch.group_id then
      let a1 : Alarm := { a with original_group_id := a.group_id, group_id := ch.group_id }
      let d := dispatch a1.alarm_id ch.group_id slots
      (if d.2.1 then { a1 with assigned_to_thread := true } else a1, d.1, d.2.2)
    else (a, slots, ([] : List Event))
  let a1 := step1.1
  let a2 :=
    if a1.message ≠ ch.message then
      { a1 with message := ch.message.take 128, message_changed := true }
    else a1
  let a3 := { a2 with time := ch.time }
  (a3, step1.2.1, step1.2.2 ++ [Event.changed a3.alarm_id a3.group_id a3.message])

/-- The inner `for` loop of the change-processing section of `alarm_thread`:
scan the registry for the first alarm with the request's id, apply
`change_update_core` to it and stop; the returned `Bool` is the
`found_pair` flag. -/
def change_scan (ch : ChangeAlarm) (slots : List Slot) :
    List Alarm → List Alarm × List Slot × List Event × Bool
  | [] => ([], slots, [], false)
  | a :: l =>
    if a.alarm_id = ch.alarm_id then
      let u := change_update_core ch slots a
      (u.1 :: l, u.2.1, u.2.2, true)
    else
      let r := change_scan ch slots l
      (a :: r.1, r.2.1, r.2.2.1, r.2.2.2)

/-- Processing of one drained `change_alarm_t` request in `alarm_thread`:
apply it to the first matching alarm, or report it invalid when no alarm
matches (`found_pair == 0`); either way the request node is freed. -/
def process_one_change (ch : ChangeAlarm) (slots : List Slot) (l : List Alarm) :
    List Alarm × List Slot × List Event :=
  let r := change_scan ch slots l
  if r.2.2.2 then (r.1, r.2.1, r.2.2.1)
  else (l, slots, [Event.invalidChange ch.alarm_id ch.group_id ch.message])

/-- The outer `while (change != NULL)` drain loop of `alarm_thread`;
afterwards `change_alarm_list = NULL`. -/
def process_changes (slots : List Slot) (l : List Alarm) :
    List ChangeAlarm → List Alarm × List Slot × List Event
  | [] => (l, slots, [])
  | ch :: rest =>
    let r := process_one_change ch slots l
    let r2 := process_changes r.2.1 r.1 rest
    (r2.1, r2.2.1, r.2.2 ++ r2.2.2)

/-- One full iteration of `alarm_thread` in new_alarm_victor.c: remove the
expired prefix (recording each removal on `removed_alarm_list`, newest
first), then drain the change queue. -/
def monitor_pass (now : Int) (alarms : List Alarm) (changes : List ChangeAlarm)
    (removed : List RemovedAlarm) (slots : List Slot) :
    List Alarm × List ChangeAlarm × List RemovedAlarm × List Slot × List Event :=
  let e := expire_loop now alarms
  let removed' := (e.1.map (to_removed now)).reverse ++ removed
  let evsExp := e.1.map (fun a => Event.removed a.alarm_id a.group_id a.message)
  let pc := process_changes slots e.2 changes
  (pc.1, [], removed', pc.2.1, evsExp ++ pc.2.2)

/-- The removed-alarm sweep at the top of `display_thread`: delete (and
report) every `removed_alarm_t` entry whose group matches the worker's. -/
def removed_scan (g : Int) : List RemovedAlarm → List RemovedAlarm × List Event
  | [] => ([], [])
  | r :: rest =>
    let p := removed_scan g rest
    if r.group_id = g then
      (p.1, Event.stoppedRemoved r.alarm_id r.group_id :: p.2)
    else (r :: p.1, p.2)

/-- The registry sweep of `display_thread`: for every alarm of the worker's
group emit one line (group-change notice, message-change notice, or the
periodic render), resetting the corresponding flag; `found` records whether
any alarm of the group was seen. -/
def display_scan (g now : Int) : List Alarm → List Alarm × List Event × Bool
  | [] => ([], [], false)
  | a :: l =>
    let p := display_scan g now l
    if a.group_id = g then
      if a.original_group_id ≠ 0 then
        ({ a with original_group_id := 0 } :: p.1,
         Event.stoppedChangedGroup a.alarm_id a.original_group_id :: p.2.1, true)
      else if a.message_changed = true then
        ({ a with message_changed := false } :: p.1,
         Event.changedMessage a.alarm_id a.group_id :: p.2.1, true)
      else
        (a :: p.1,
         Event.rendered a.alarm_id a.group_id (a.time - now) a.message :: p.2.1, true)
    else (a :: p.1, p.2.1, p.2.2)

/-- Result of one `display_thread` loop iteration. -/
structure WorkerStepResult where
  alarms : List Alarm
  removed : List RemovedAlarm
  slots : List Slot
  running : Bool
  events : List Event
deriving DecidableEq, Repr

/-- One iteration of the `while (1)` loop of `display_thread` for group `g`
(a no-op once the worker has exited). The loop body sweeps the removed list,
scans the registry, and `break`s with the "exiting" line when no alarm of
the group was found; it never writes the `display_threads` slot table. -/
def worker_step (g now : Int) (alarms : List Alarm) (removed : List RemovedAlarm)
    (slots : List Slot) (running : Bool) : WorkerStepResult :=
  if running then
    let rs := removed_scan g removed
    let ds := display_scan g now alarms
    if ds.2.2 then
      { alarms := ds.1, removed := rs.1, slots := slots, running := true
        events := rs.2 ++ ds.2.1 }
    else
      { alarms := ds.1, removed := rs.1, slots := slots, running := false
        events := rs.2 ++ ds.2.1 ++ [Event.exiting g] }
  else
    { alarms := alarms, removed := removed, slots := slots, running := false
      events := [] }

/-- The `Start_Alarm` path of `main` reads the message with
`sscanf %128[^\n]` into a 129-byte buffer: at most 128 characters are
stored. -/
def victor_store_message (m : List Char) : List Char := m.take 128

end Victor

namespace Cond

/-- The `alarm_tag` struct of new_alarm_cond.c (note the 64-byte message
buffer). -/
structure CAlarm where
  seconds : Int
  time : Int
  message : List Char
  alarm_id : Int
  group_number : Int
deriving DecidableEq, Repr

/-- `alarm_insert` of new_alarm_cond.c, list part: identical id-ordered
insertion. -/
def alarm_insert (a : CAlarm) : List CAlarm → List CAlarm
  | [] => [a]
  | b :: rest =>
    if a.alarm_id ≤ b.alarm_id then a :: b :: rest
    else b :: alarm_insert a rest

/-- The wake-up part of `alarm_insert` in new_alarm_cond.c: signal (and
retarget `current_alarm`) only when the monitor is idle (`current_alarm ==
0`) or the new alarm's time is earlier than the current wait target.
Returns the new `current_alarm` and the number of signals sent. -/
def cond_insert_signal (t cur : Int) : Int × Nat :=
  if cur = 0 ∨ t < cur then (t, 1) else (cur, 0)

/-- The message stored by `start_alarm` of new_alarm_cond.c:
`strncpy(alarm->message, message, 63)` into the `char message[64]` field,
then `message[63] = 0` — at most 63 characters survive. (The function also
builds a 128-byte `truncated_message` that it never uses.) -/
def cond_store_message (m : List Char) : List Char := m.take 63

/-- `start_alarm` of new_alarm_cond.c: build the alarm record that is
inserted into the list. -/
def start_alarm (aId g secs now : Int) (msg : List Char) : CAlarm :=
  { seconds := secs, time := now + secs, message := cond_store_message msg
    alarm_id := aId, group_number := g }

end Cond

/-- Builder for a freshly admitted alarm (fields of a `Start_Alarm`). -/
def mkAlarm (id g t : Int) (msg : List Char) : Alarm :=
  { seconds := 0, alarm_id := id, group_id := g, time := t, message := msg
    assigned_to_thread := false, original_group_id := 0, message_changed := false }

/-- The registry order invariant: nondecreasing `alarm_id` along the list. -/
def SortedById (l : List Alarm) : Prop :=
  l.Pairwise (fun x y => x.alarm_id ≤ y.alarm_id)

/-- Slot predicate: active and bound to group `g`. -/
def is_active_group (g : Int) (s : Slot) : Bool :=
  s.active && s.group_id == g

/-- Registry operations visible to the monitor: an admission insert, or one
expiry sweep at a given time. -/
inductive MOp where
  | insert (a : Alarm) : MOp
  | expire (now : Int) : MOp
deriving DecidableEq, Repr

/-- Run a sequence of registry operations; returns the final registry and
the concatenation, in order, of everything the expiry sweeps removed. -/
def runOps : List MOp → List Alarm → List Alarm × List Alarm
  | [], l => (l, [])
  | MOp.insert a :: ops, l => runOps ops (Victor.alarm_insert a l)
  | MOp.expire now :: ops, l =>
    let e := Victor.expire_loop now l
    let r := runOps ops e.2
    (r.1, e.1 ++ r.2)

/-- The alarms inserted along a sequence of registry operations. -/
def insertedAlarms : List MOp → List Alarm
  | [] => []
  | MOp.insert a :: ops => a :: insertedAlarms ops
  | MOp.expire _ :: ops => insertedAlarms ops

theorem expire_loop_append (now : Int) (l : List Alarm) :
    (Victor.expire_loop now l).1 ++ (Victor.expire_loop now l).2 = l := by
  induction l with
  | nil => rfl
  | cons a rest ih =>
    by_cases h : a.time ≤ now
    · simp [Victor.expire_loop, h, ih]
    · simp [Victor.expire_loop, h]

theorem expire_loop_removed_le (now : Int) (l : List Alarm) :
    ∀ a ∈ (Victor.expire_loop now l).1, a.time ≤ now := by
  induction l with
  | nil => intro a ha; simp [Victor.expire_loop] at ha
  | cons b rest ih =>
    intro a ha
    by_cases h : b.time ≤ now
    · simp [Victor.expire_loop, h] at ha
      rcases ha with rfl | ha
      · exact h
      · exact ih a ha
    · simp [Victor.expire_loop, h] at ha

theorem expire_loop_keep_head (now : Int) (l : List Alarm) :
    ∀ a ∈ (Victor.expire_loop now l).2.head?, now < a.time := by
  induction l with
  | nil => intro a ha; simp [Victor.expire_loop] at ha
  | cons b rest ih =>
    intro a ha
    by_cases h : b.time ≤ now
    · simp only [Victor.expire_loop, if_pos h] at ha
      exact ih a ha
    · simp only [Victor.expire_loop, if_neg h, List.head?_cons, Option.mem_def,
        Option.some.injEq] at ha
      subst ha
      exact lt_of_not_le h

/-- C1 (amended): the monitor's expiry step splits the registry into the
removed part and the retained part in registry order, every removed alarm is
past due, and it removes the maximal such prefix (the head of the retained
registry, when present, is not yet due). Expired alarms behind a not-yet-due
alarm in the id-ordered registry are NOT removed. -/
theorem C1_expiry_prefix (now : Int) (l : List Alarm) :
    (Victor.expire_loop now l).1 ++ (Victor.expire_loop now l).2 = l
    ∧ (∀ a ∈ (Victor.expire_loop now l).1, a.time ≤ now)
    ∧ (∀ a ∈ (Victor.expire_loop now l).2.head?, now < a.time) :=
  ⟨expire_loop_append now l, expire_loop_removed_le now l, expire_loop_keep_head now l⟩

/-- C1 witness: the amended statement evaluated on a concrete registry. -/
theorem C1_expiry_prefix_witness :
    (Victor.expire_loop 10 [mkAlarm 1 1 5 [], mkAlarm 2 1 50 []]).1
        ++ (Victor.expire_loop 10 [mkAlarm 1 1 5 [], mkAlarm 2 1 50 []]).2
      = [mkAlarm 1 1 5 [], mkAlarm 2 1 50 []]
    ∧ (∀ a ∈ (Victor.expire_loop 10 [mkAlarm 1 1 5 [], mkAlarm 2 1 50 []]).1, a.time ≤ 10)
    ∧ (∀ a ∈ (Victor.expire_loop 10 [mkAlarm 1 1 5 [], mkAlarm 2 1 50 []]).2.head?,
        (10 : Int) < a.time) :=
  C1_expiry_prefix 10 [mkAlarm 1 1 5 [], mkAlarm 2 1 50 []]

/-- C1 counterexample: after inserting alarm 1 (due at 100) and alarm 2 (due
at 5), the registry — ordered by id — is `[alarm 1, alarm 2]`; at time 10
the expiry step removes nothing although alarm 2's deadline (5) is ≤ 10 and
it stays in the registry. So `removeExpired` does not return exactly the
subset with deadline ≤ now. -/
theorem C1_counterexample :
    (Victor.expire_loop 10
        (Victor.alarm_insert (mkAlarm 2 1 5 []) (Victor.alarm_insert (mkAlarm 1 1 100 []) []))).1
      = []
    ∧ mkAlarm 2 1 5 [] ∈ (Victor.expire_loop 10
        (Victor.alarm_insert (mkAlarm 2 1 5 []) (Victor.alarm_insert (mkAlarm 1 1 100 []) []))).2
    ∧ (mkAlarm 2 1 5 []).time ≤ 10 := by
  decide

theorem mem_alarm_insert {x a : Alarm} {l : List Alarm} :
    x ∈ Victor.alarm_insert a l ↔ x = a ∨ x ∈ l := by
  induction l with
  | nil => simp [Victor.alarm_insert]
  | cons b rest ih =>
    by_cases h : a.alarm_id ≤ b.alarm_id
    · simp [Victor.alarm_insert, h]
    · simp only [Victor.alarm_insert, if_neg h, List.mem_cons, ih]
      tauto

theorem sorted_alarm_insert (a : Alarm) {l : List Alarm} (hl : SortedById l) :
    SortedById (Victor.alarm_insert a l) := by
  induction l with
  | nil => simp [Victor.alarm_insert, SortedById]
  | cons b rest ih =>
    rw [SortedById, List.pairwise_cons] at hl
    by_cases h : a.alarm_id ≤ b.alarm_id
    · rw [SortedById]
      simp only [Victor.alarm_insert, if_pos h, List.pairwise_cons, List.mem_cons]
      refine ⟨?_, ?_, hl.2⟩
      · rintro y (rfl | hy)
        · exact h
        · exact le_trans h (hl.1 y hy)
      · exact hl.1
    · rw [SortedById]
      simp only [Victor.alarm_insert, if_neg h, List.pairwise_cons]
      constructor
      · intro y hy
        rcases mem_alarm_insert.mp hy with rfl | hy
        · exact le_of_lt (lt_of_not_le h)
        · exact hl.1 y hy
      · exact ih hl.2

theorem sorted_expire_loop (now : Int) {l : List Alarm} (hl : SortedById l) :
    SortedById (Victor.expire_loop now l).2 := by
  have h := expire_loop_append now l
  rw [SortedById, ← h, List.pairwise_append] at hl
  exact hl.2.1

theorem change_update_core_alarm_id (ch : ChangeAlarm) (slots : List Slot) (a : Alarm) :
    (Victor.change_update_core ch slots a).1.alarm_id = a.alarm_id := by
  simp only [Victor.change_update_core]
  by_cases hg : a.group_id ≠ ch.group_id <;>
    by_cases hd : (Victor.dispatch a.alarm_id ch.group_id slots).2.1 <;>
      simp [hg, hd] <;> split <;> rfl

theorem change_scan_map_id (ch : ChangeAlarm) (slots : List Slot) (l : List Alarm) :
    ((Victor.change_scan ch slots l).1).map (fun x => x.alarm_id)
      = l.map (fun x => x.alarm_id) := by
  induction l with
  | nil => rfl
  | cons a rest ih =>
    by_cases h : a.alarm_id = ch.alarm_id
    · simp [Victor.change_scan, h, change_update_core_alarm_id]
    · simp [Victor.change_scan, h, ih]

theorem sorted_change_scan (ch : ChangeAlarm) (slots : List Slot) {l : List Alarm}
    (hl : SortedById l) : SortedById (Victor.change_scan ch slots l).1 := by
  have h1 : ((l.map (fun x => x.alarm_id)).Pairwise (fun x y => x ≤ y)) :=
    List.pairwise_map.mpr hl
  rw [← change_scan_map_id ch slots l] at h1
  exact List.pairwise_map.mp h1

/-- C3 (amended): every operation — insert, expiry, change application —
preserves the registry order (nondecreasing `alarm_id`, a total stable key);
but the uniqueness half of the claim fails: see the counterexample. -/
theorem C3_sorted_registry :
    (∀ (a : Alarm) (l : List Alarm), SortedById l → SortedById (Victor.alarm_insert a l))
    ∧ (∀ (now : Int) (l : List Alarm), SortedById l → SortedById (Victor.expire_loop now l).2)
    ∧ (∀ (ch : ChangeAlarm) (slots : List Slot) (l : List Alarm),
        SortedById l → SortedById (Victor.change_scan ch slots l).1) :=
  ⟨fun a _ hl => sorted_alarm_insert a hl,
   fun now _ hl => sorted_expire_loop now hl,
   fun ch slots _ hl => sorted_change_scan ch slots hl⟩

/-- C3 witness: order preservation evaluated on concrete registries. -/
theorem C3_sorted_registry_witness :
    SortedById (Victor.alarm_insert (mkAlarm 2 1 5 []) [mkAlarm 1 1 9 [], mkAlarm 3 1 7 []])
    ∧ SortedById (Victor.expire_loop 6 [mkAlarm 1 1 5 [], mkAlarm 3 1 7 []]).2
    ∧ SortedById (Victor.change_scan { alarm_id := 1, group_id := 2, time := 9, message := [] }
        [] [mkAlarm 1 1 5 [], mkAlarm 3 1 7 []]).1 :=
  ⟨C3_sorted_registry.1 _ _ (by simp [SortedById, mkAlarm]),
   C3_sorted_registry.2.1 6 _ (by simp [SortedById, mkAlarm]),
   C3_sorted_registry.2.2 _ [] _ (by simp [SortedById, mkAlarm])⟩

/-- C3 counterexample: inserting a second alarm with the id of a pending one
leaves two live registry entries with `alarm_id = 1` (the new entry is
spliced in directly before the old one). -/
theorem C3_counterexample :
    ((Victor.alarm_insert (mkAlarm 1 2 20 []) (Victor.alarm_insert (mkAlarm 1 1 10 []) [])).countP
        (fun x => x.alarm_id == 1)) = 2 := by
  decide

theorem alarm_insert_perm (a : Alarm) (l : List Alarm) :
    List.Perm (Victor.alarm_insert a l) (a :: l) := by
  induction l with
  | nil => exact List.Perm.refl _
  | cons b rest ih =>
    by_cases h : a.alarm_id ≤ b.alarm_id
    · simp only [Victor.alarm_insert, if_pos h]
      exact List.Perm.refl _
    · simp only [Victor.alarm_insert, if_neg h]
      exact List.Perm.trans (List.Perm.cons b ih) (List.Perm.swap a b rest)

theorem alarm_insert_count (a b : Alarm) (l : List Alarm) :
    (Victor.alarm_insert a l).count b = (a :: l).count b :=
  (alarm_insert_perm a l).count_eq b

theorem runOps_conservation (ops : List MOp) :
    ∀ (l : List Alarm) (b : Alarm),
      ((runOps ops l).2).count b + ((runOps ops l).1).count b
        = (insertedAlarms ops).count b + l.count b := by
  induction ops with
  | nil => intro l b; simp [runOps, insertedAlarms]
  | cons op rest ih =>
    intro l b
    cases op with
    | insert a =>
      simp only [runOps, insertedAlarms]
      rw [ih (Victor.alarm_insert a l) b, alarm_insert_count a b l,
        List.count_cons, List.count_cons]
      omega
    | expire now =>
      simp only [runOps, insertedAlarms, List.count_append]
      have hsplit : (Victor.expire_loop now l).1.count b
            + (Victor.expire_loop now l).2.count b = l.count b := by
        rw [← List.count_append, expire_loop_append now l]
      have hr := ih (Victor.expire_loop now l).2 b
      omega

/-- C7: along any sequence of inserts and expiry sweeps, an alarm that is
inserted at most once is removed and reported by the expiry step at most
once (each expired alarm leaves the registry when removed, so no later sweep
can remove it again). -/
theorem C7_no_double_expiry (ops : List MOp) (b : Alarm)
    (h : (insertedAlarms ops).count b ≤ 1) :
    ((runOps ops []).2).count b ≤ 1 := by
  have hc := runOps_conservation ops [] b
  simp only [List.count_nil] at hc
  omega

/-- C7 witness: a concrete trace — insert alarm 1 (due at 5), sweep at 10,
sweep again at 20 — removes that alarm at most once. -/
theorem C7_no_double_expiry_witness :
    ((runOps [MOp.insert (mkAlarm 1 1 5 []), MOp.expire 10, MOp.expire 20] []).2).count
        (mkAlarm 1 1 5 []) ≤ 1 :=
  C7_no_double_expiry [MOp.insert (mkAlarm 1 1 5 []), MOp.expire 10, MOp.expire 20]
    (mkAlarm 1 1 5 []) (by decide)

theorem dispatch_countP (aId g : Int) (s : List Slot) :
    ((Victor.dispatch aId g s).2.2).countP isChangedEv = 0
    ∧ ((Victor.dispatch aId g s).2.2).countP isInvalidEv = 0 := by
  unfold Victor.dispatch
  cases h : Victor.try_assign g s <;> simp [isChangedEv, isInvalidEv]

theorem change_update_core_time (ch : ChangeAlarm) (slots : List Slot) (a : Alarm) :
    (Victor.change_update_core ch slots a).1.time = ch.time := by
  by_cases hg : a.group_id ≠ ch.group_id <;>
    by_cases hd : (Victor.dispatch a.alarm_id ch.group_id slots).2.1 = true <;>
      by_cases hm : a.message = ch.message <;>
        simp [Victor.change_update_core, hg, hd, hm]

theorem change_update_core_group (ch : ChangeAlarm) (slots : List Slot) (a : Alarm) :
    (Victor.change_update_core ch slots a).1.group_id = ch.group_id := by
  by_cases hg : a.group_id ≠ ch.group_id <;>
    by_cases hd : (Victor.dispatch a.alarm_id ch.group_id slots).2.1 = true <;>
      by_cases hm : a.message = ch.message <;>
        simp [Victor.change_update_core, hg, hd, hm]
  all_goals push_neg at hg
  all_goals omega

theorem change_update_core_message (ch : ChangeAlarm) (slots : List Slot) (a : Alarm)
    (hmsg : ch.message.length ≤ 128) :
    (Victor.change_update_core ch slots a).1.message = ch.message := by
  by_cases hg : a.group_id ≠ ch.group_id <;>
    by_cases hd : (Victor.dispatch a.alarm_id ch.group_id slots).2.1 = true <;>
      by_cases hm : a.message = ch.message <;>
        simp [Victor.change_update_core, hg, hd, hm, List.take_of_length_le hmsg]

theorem change_update_core_group_eq (ch : ChangeAlarm) (slots : List Slot) (a : Alarm)
    (hg : a.group_id = ch.group_id) :
    (Victor.change_update_core ch slots a).1.original_group_id = a.original_group_id
    ∧ (Victor.change_update_core ch slots a).2.1 = slots
    ∧ (Victor.change_update_core ch slots a).1.assigned_to_thread = a.assigned_to_thread := by
  by_cases hm : a.message = ch.message <;> simp [Victor.change_update_core, hg, hm]

theorem change_update_core_group_ne (ch : ChangeAlarm) (slots : List Slot) (a : Alarm)
    (hg : a.group_id ≠ ch.group_id) :
    (Victor.change_update_core ch slots a).1.original_group_id = a.group_id := by
  by_cases hd : (Victor.dispatch a.alarm_id ch.group_id slots).2.1 = true <;>
    by_cases hm : a.message = ch.message <;>
      simp [Victor.change_update_core, hg, hd, hm]

theorem change_update_core_msg_eq (ch : ChangeAlarm) (slots : List Slot) (a : Alarm)
    (hm : a.message = ch.message) :
    (Victor.change_update_core ch slots a).1.message = a.message
    ∧ (Victor.change_update_core ch slots a).1.message_changed = a.message_changed := by
  by_cases hg : a.group_id ≠ ch.group_id <;>
    by_cases hd : (Victor.dispatch a.alarm_id ch.group_id slots).2.1 = true <;>
      simp [Victor.change_update_core, hg, hd, hm]

theorem change_update_core_msg_ne (ch : ChangeAlarm) (slots : List Slot) (a : Alarm)
    (hm : a.message ≠ ch.message) :
    (Victor.change_update_core ch slots a).1.message = ch.message.take 128
    ∧ (Victor.change_update_core ch slots a).1.message_changed = true := by
  by_cases hg : a.group_id ≠ ch.group_id <;>
    by_cases hd : (Victor.dispatch a.alarm_id ch.group_id slots).2.1 = true <;>
      simp [Victor.change_update_core, hg, hd, hm]

theorem change_update_core_events (ch : ChangeAlarm) (slots : List Slot) (a : Alarm) :
    ((Victor.change_update_core ch slots a).2.2).countP isChangedEv = 1
    ∧ ((Victor.change_update_core ch slots a).2.2).countP isInvalidEv = 0 := by
  simp only [Victor.change_update_core]
  by_cases hg : a.group_id ≠ ch.group_id
  · have hd := dispatch_countP a.alarm_id ch.group_id slots
    simp [hg, List.countP_append, isChangedEv, isInvalidEv] at hd ⊢
    exact hd
  · simp [hg, isChangedEv, isInvalidEv]

theorem change_scan_no_match (ch : ChangeAlarm) (slots : List Slot) :
    ∀ l : List Alarm, (∀ b ∈ l, b.alarm_id ≠ ch.alarm_id) →
      Victor.change_scan ch slots l = (l, slots, [], false) := by
  intro l h
  induction l with
  | nil => rfl
  | cons a rest ih =>
    have ha : a.alarm_id ≠ ch.alarm_id := h a (List.mem_cons_self a rest)
    have ih2 := ih (fun b hb => h b (List.mem_cons_of_mem a hb))
    simp [Victor.change_scan, ha, ih2]

theorem change_scan_found (ch : ChangeAlarm) (slots : List Slot) (a : Alarm)
    (l₂ : List Alarm) (ha : a.alarm_id = ch.alarm_id) :
    ∀ l₁ : List Alarm, (∀ b ∈ l₁, b.alarm_id ≠ ch.alarm_id) →
      Victor.change_scan ch slots (l₁ ++ a :: l₂)
        = (l₁ ++ (Victor.change_update_core ch slots a).1 :: l₂,
           (Victor.change_update_core ch slots a).2.1,
           (Victor.change_update_core ch slots a).2.2, true) := by
  intro l₁ h
  induction l₁ with
  | nil => simp [Victor.change_scan, ha]
  | cons b rest ih =>
    have hb : b.alarm_id ≠ ch.alarm_id := h b (List.mem_cons_self b rest)
    have ih2 := ih (fun x hx => h x (List.mem_cons_of_mem b hx))
    simp [Victor.change_scan, hb, ih2]

/-- C2: processing a drained change request against the registry: when some
live alarm carries the target id, exactly the first such alarm is rewritten
in place — its group, message and deadline become the request's values, every
other entry (before and after) is untouched, no entry is added or removed —
and exactly one "changed" event (and no "invalid" event) is produced; when no
live alarm matches, an "invalid" event is produced and registry and slot
table are returned unchanged (the request itself is consumed either way). -/
theorem C2_change_application :
    (∀ (ch : ChangeAlarm) (slots : List Slot) (l₁ l₂ : List Alarm) (a : Alarm),
      (∀ b ∈ l₁, b.alarm_id ≠ ch.alarm_id) → a.alarm_id = ch.alarm_id →
      ch.message.length ≤ 128 →
      ∃ a' slots' evs,
        Victor.process_one_change ch slots (l₁ ++ a :: l₂) = (l₁ ++ a' :: l₂, slots', evs)
        ∧ a'.alarm_id = a.alarm_id ∧ a'.group_id = ch.group_id
        ∧ a'.message = ch.message ∧ a'.time = ch.time
        ∧ evs.countP isChangedEv = 1 ∧ evs.countP isInvalidEv = 0)
    ∧ (∀ (ch : ChangeAlarm) (slots : List Slot) (l : List Alarm),
      (∀ b ∈ l, b.alarm_id ≠ ch.alarm_id) →
      Victor.process_one_change ch slots l
        = (l, slots, [Event.invalidChange ch.alarm_id ch.group_id ch.message])) := by
  constructor
  · intro ch slots l₁ l₂ a h1 ha hmsg
    refine ⟨(Victor.change_update_core ch slots a).1,
      (Victor.change_update_core ch slots a).2.1,
      (Victor.change_update_core ch slots a).2.2, ?_,
      change_update_core_alarm_id ch slots a,
      change_update_core_group ch slots a,
      change_update_core_message ch slots a hmsg,
      change_update_core_time ch slots a,
      (change_update_core_events ch slots a).1,
      (change_update_core_events ch slots a).2⟩
    simp [Victor.process_one_change, change_scan_found ch slots a l₂ ha l₁ h1]
  · intro ch slots l h
    simp [Victor.process_one_change, change_scan_no_match ch slots l h]

/-- C2 witness: the theorem evaluated on a concrete registry — a matching
request rewrites the one matching alarm; a non-matching request is reported
invalid and changes nothing. -/
theorem C2_change_application_witness :
    (∃ a' slots' evs,
      Victor.process_one_change { alarm_id := 2, group_id := 9, time := 77, message := [] }
          [] ([mkAlarm 1 1 5 []] ++ mkAlarm 2 1 6 [] :: [mkAlarm 3 1 7 []])
        = ([mkAlarm 1 1 5 []] ++ a' :: [mkAlarm 3 1 7 []], slots', evs)
      ∧ a'.alarm_id = (mkAlarm 2 1 6 []).alarm_id ∧ a'.group_id = 9
      ∧ a'.message = [] ∧ a'.time = 77
      ∧ evs.countP isChangedEv = 1 ∧ evs.countP isInvalidEv = 0)
    ∧ Victor.process_one_change { alarm_id := 8, group_id := 9, time := 77, message := [] }
        [] [mkAlarm 1 1 5 []]
      = ([mkAlarm 1 1 5 []], [], [Event.invalidChange 8 9 []]) :=
  ⟨C2_change_application.1 _ [] [mkAlarm 1 1 5 []] [mkAlarm 3 1 7 []] (mkAlarm 2 1 6 [])
      (by decide) (by decide) (by decide),
   C2_change_application.2 _ [] [mkAlarm 1 1 5 []] (by decide)⟩

/-- C10: a change request mutates at most one alarm — the first registry
entry whose id equals the target id; every entry before it and after it
(same-id duplicates included) is left unchanged. On the mutated alarm the
deadline is overwritten unconditionally, while the group (with
`original_group_id` and the slot table) and the message (with the
`message_changed` flag) are overwritten only when they differ from the
request's values. -/
theorem C10_first_match_update (ch : ChangeAlarm) (slots : List Slot)
    (l₁ l₂ : List Alarm) (a : Alarm)
    (h1 : ∀ b ∈ l₁, b.alarm_id ≠ ch.alarm_id) (ha : a.alarm_id = ch.alarm_id) :
    ∃ a' slots' evs,
      Victor.change_scan ch slots (l₁ ++ a :: l₂) = (l₁ ++ a' :: l₂, slots', evs, true)
      ∧ a'.time = ch.time
      ∧ (a.group_id = ch.group_id →
          a'.group_id = a.group_id ∧ a'.original_group_id = a.original_group_id
          ∧ slots' = slots)
      ∧ (a.group_id ≠ ch.group_id →
          a'.group_id = ch.group_id ∧ a'.original_group_id = a.group_id)
      ∧ (a.message = ch.message →
          a'.message = a.message ∧ a'.message_changed = a.message_changed)
      ∧ (a.message ≠ ch.message →
          a'.message = ch.message.take 128 ∧ a'.message_changed = true) := by
  refine ⟨(Victor.change_update_core ch slots a).1,
    (Victor.change_update_core ch slots a).2.1,
    (Victor.change_update_core ch slots a).2.2,
    change_scan_found ch slots a l₂ ha l₁ h1, change_update_core_time ch slots a,
    ?_, ?_, ?_, ?_⟩
  · intro hg
    exact ⟨hg ▸ change_update_core_group ch slots a,
      (change_update_core_group_eq ch slots a hg).1,
      (change_update_core_group_eq ch slots a hg).2.1⟩
  · intro hg
    exact ⟨change_update_core_group ch slots a, change_update_core_group_ne ch slots a hg⟩
  · exact change_update_core_msg_eq ch slots a
  · exact change_update_core_msg_ne ch slots a

/-- C10 witness: the theorem evaluated on a concrete registry containing a
same-id duplicate behind the first match. -/
theorem C10_first_match_update_witness :
    ∃ a' slots' evs,
      Victor.change_scan { alarm_id := 2, group_id := 9, time := 77, message := [] }
          [] ([mkAlarm 1 1 5 []] ++ mkAlarm 2 1 6 [] :: [mkAlarm 2 4 8 []])
        = ([mkAlarm 1 1 5 []] ++ a' :: [mkAlarm 2 4 8 []], slots', evs, true)
      ∧ a'.time = 77
      ∧ ((mkAlarm 2 1 6 []).group_id = 9 →
          a'.group_id = (mkAlarm 2 1 6 []).group_id
          ∧ a'.original_group_id = (mkAlarm 2 1 6 []).original_group_id
          ∧ slots' = [])
      ∧ ((mkAlarm 2 1 6 []).group_id ≠ 9 →
          a'.group_id = 9 ∧ a'.original_group_id = (mkAlarm 2 1 6 []).group_id)
      ∧ ((mkAlarm 2 1 6 []).message = [] →
          a'.message = (mkAlarm 2 1 6 []).message
          ∧ a'.message_changed = (mkAlarm 2 1 6 []).message_changed)
      ∧ ((mkAlarm 2 1 6 []).message ≠ [] →
          a'.message = List.take 128 [] ∧ a'.message_changed = true) :=
  C10_first_match_update { alarm_id := 2, group_id := 9, time := 77, message := [] }
    [] [mkAlarm 1 1 5 []] [mkAlarm 2 4 8 []] (mkAlarm 2 1 6 []) (by decide) (by decide)

theorem try_assign_none (g : Int) :
    ∀ l : List Slot, (∀ s ∈ l, is_active_group g s = false) →
      Victor.try_assign g l = none := by
  intro l h
  induction l with
  | nil => rfl
  | cons s rest ih =>
    have hs := h s (List.mem_cons_self s rest)
    simp only [is_active_group, Bool.and_eq_false_imp, beq_eq_false_iff_ne] at hs
    have hcond : ¬(s.active = true ∧ s.group_id = g ∧ s.alarm_count < 2) := by
      rintro ⟨h1, h2, _⟩
      exact hs h1 h2
    simp [Victor.try_assign, hcond, ih (fun x hx => h x (List.mem_cons_of_mem s hx))]

theorem filter_active_group_nil (g : Int) :
    ∀ l : List Slot, (∀ s ∈ l, is_active_group g s = false) →
      l.filter (is_active_group g) = [] := by
  intro l h
  exact List.filter_eq_nil_iff.mpr (fun s hs => by simp [h s hs])

theorem create_slot_filter (g : Int) :
    ∀ l : List Slot, (∀ s ∈ l, is_active_group g s = false) →
      1 ≤ l.countP (fun s => !s.active) →
      (Victor.create_slot g l).filter (is_active_group g)
        = [{ group_id := g, active := true, alarm_count := 1 }] := by
  intro l h hc
  induction l with
  | nil => simp at hc
  | cons s rest ih =>
    by_cases hs : s.active = false
    · simp only [Victor.create_slot, if_pos hs]
      rw [List.filter_cons_of_pos (by simp [is_active_group])]
      rw [filter_active_group_nil g rest (fun x hx => h x (List.mem_cons_of_mem s hx))]
    · simp only [Victor.create_slot, if_neg hs]
      rw [List.filter_cons_of_neg (by simp [h s (List.mem_cons_self s rest)])]
      have hc2 : 1 ≤ rest.countP (fun s => !s.active) := by
        have : (!s.active) = false := by
          simp at hs
          simp [hs]
        simpa [List.countP_cons, this] using hc
      exact ih (fun x hx => h x (List.mem_cons_of_mem s hx)) hc2

theorem dispatch_skip (g : Int) (s : Slot) (t : List Slot)
    (hact : s.active = true) (hgrp : s.group_id ≠ g) :
    Victor.dispatchSlots g (s :: t) = s :: Victor.dispatchSlots g t := by
  have hcond : ¬(s.active = true ∧ s.group_id = g ∧ s.alarm_count < 2) := by
    rintro ⟨_, h2, _⟩
    exact hgrp h2
  have hcr : Victor.create_slot g (s :: t) = s :: Victor.create_slot g t := by
    simp [Victor.create_slot, hact]
  simp only [Victor.dispatchSlots, Victor.dispatch, Victor.try_assign, hcond, if_neg hcond]
  cases ht : Victor.try_assign g t <;> simp [ht, hcr]

/-- C5: starting from a slot table with no active slot for group `g` and at
least two free slots, three consecutive assignments of group-`g` alarms
(first-fit over active same-group slots with count < 2, opening a fresh slot
when none qualifies) leave exactly two active slots for `g`, the earlier one
holding 2 alarms and the later one holding 1. -/
theorem C5_three_assignments (g : Int) (slots : List Slot)
    (hnone : ∀ s ∈ slots, is_active_group g s = false)
    (hfree : 2 ≤ slots.countP (fun s => !s.active)) :
    ((Victor.assign_thrice g slots).filter (is_active_group g)).map
        (fun s => s.alarm_count) = [2, 1] := by
  induction slots with
  | nil => simp at hfree
  | cons s rest ih =>
    by_cases hs : s.active = false
    · have hrest : ∀ x ∈ rest, is_active_group g x = false :=
        fun x hx => hnone x (List.mem_cons_of_mem s hx)
      have hfree2 : 1 ≤ rest.countP (fun x => !x.active) := by
        simpa [List.countP_cons, hs] using hfree
      have hta : Victor.try_assign g rest = none := try_assign_none g rest hrest
      have step1 : Victor.dispatchSlots g (s :: rest)
          = { group_id := g, active := true, alarm_count := 1 } :: rest := by
        have hcond : ¬(s.active = true ∧ s.group_id = g ∧ s.alarm_count < 2) := by
          rintro ⟨h1, _, _⟩
          rw [hs] at h1
          cases h1
        simp [Victor.dispatchSlots, Victor.dispatch, Victor.try_assign, hcond, hta,
          Victor.create_slot, hs]
      have step2 : Victor.dispatchSlots g
          ({ group_id := g, active := true, alarm_count := 1 } :: rest)
          = { group_id := g, active := true, alarm_count := 2 } :: rest := by
        simp [Victor.dispatchSlots, Victor.dispatch, Victor.try_assign]
      have step3 : Victor.dispatchSlots g
          ({ group_id := g, active := true, alarm_count := 2 } :: rest)
          = { group_id := g, active := true, alarm_count := 2 } :: Victor.create_slot g rest := by
        have hcond : ¬((true : Bool) = true ∧ g = g ∧ (2 : Nat) < 2) := by
          rintro ⟨_, _, h3⟩
          omega
        simp [Victor.dispatchSlots, Victor.dispatch, Victor.try_assign, hta, hcond,
          Victor.create_slot]
      rw [Victor.assign_thrice, step1, step2, step3]
      rw [List.filter_cons_of_pos (by simp [is_active_group])]
      rw [create_slot_filter g rest hrest hfree2]
      rfl
    · have hact : s.active = true := by
        simp at hs
        exact hs
      have hgrp : s.group_id ≠ g := by
        have := hnone s (List.mem_cons_self s rest)
        simp [is_active_group, hact] at this
        exact this
      have hskip : Victor.assign_thrice g (s :: rest) = s :: Victor.assign_thrice g rest := by
        rw [Victor.assign_thrice, Victor.assign_thrice, dispatch_skip g s rest hact hgrp,
          dispatch_skip g s _ hact hgrp, dispatch_skip g s _ hact hgrp]
      rw [hskip]
      rw [List.filter_cons_of_neg (by simp [is_active_group, hact, hgrp])]
      have hfree2 : 2 ≤ rest.countP (fun x => !x.active) := by
        simpa [List.countP_cons, hact] using hfree
      exact ih (fun x hx => hnone x (List.mem_cons_of_mem s hx)) hfree2

/-- C5 witness: three group-5 assignments on the all-inactive 10-slot table
of the program's initial state. -/
theorem C5_three_assignments_witness :
    ((Victor.assign_thrice 5 (List.replicate 10
          { group_id := 0, active := false, alarm_count := 0 })).filter
        (is_active_group 5)).map (fun s => s.alarm_count) = [2, 1] :=
  C5_three_assignments 5 _ (by decide) (by decide)

theorem display_scan_no_group (g now : Int) :
    ∀ l : List Alarm, (∀ a ∈ l, a.group_id ≠ g) →
      Victor.display_scan g now l = (l, [], false) := by
  intro l h
  induction l with
  | nil => rfl
  | cons a rest ih =>
    have ha : a.group_id ≠ g := h a (List.mem_cons_self a rest)
    simp [Victor.display_scan, ha, ih (fun x hx => h x (List.mem_cons_of_mem a hx))]

theorem removed_scan_no_exiting (g : Int) :
    ∀ rem : List RemovedAlarm,
      ((Victor.removed_scan g rem).2).countP isExitingEv = 0 := by
  intro rem
  induction rem with
  | nil => rfl
  | cons r rest ih =>
    by_cases h : r.group_id = g <;>
      simp [Victor.removed_scan, h, List.countP_cons, isExitingEv, ih]

/-- C4 (amended): when a display worker's scan collects zero alarms of its
group it emits exactly one "exiting" event and reaches its terminal state
(every later step performs no scan and emits nothing); however, contrary to
the original claim, the slot table is not touched: the worker's slot keeps
`active = true` and its old `assigned_count`, so it is not made eligible for
reuse. -/
theorem C4_worker_exit :
    (∀ (g now : Int) (alarms : List Alarm) (removed : List RemovedAlarm)
        (slots : List Slot),
      (∀ a ∈ alarms, a.group_id ≠ g) →
      (Victor.worker_step g now alarms removed slots true).events.countP isExitingEv = 1
      ∧ (Victor.worker_step g now alarms removed slots true).running = false
      ∧ (Victor.worker_step g now alarms removed slots true).slots = slots)
    ∧ (∀ (g now : Int) (alarms : List Alarm) (removed : List RemovedAlarm)
        (slots : List Slot),
      Victor.worker_step g now alarms removed slots false
        = { alarms := alarms, removed := removed, slots := slots, running := false
            events := [] }) := by
  constructor
  · intro g now alarms removed slots h
    have hds := display_scan_no_group g now alarms h
    have hrs := removed_scan_no_exiting g removed
    refine ⟨?_, ?_, ?_⟩ <;>
      simp [Victor.worker_step, hds, List.countP_append, hrs, isExitingEv]
  · intro g now alarms removed slots
    rfl

/-- C4 witness: the theorem evaluated on a registry that holds only a
group-7 alarm, for a group-5 worker whose slot holds one alarm. -/
theorem C4_worker_exit_witness :
    ((Victor.worker_step 5 0 [mkAlarm 1 7 9 []] []
        [{ group_id := 5, active := true, alarm_count := 1 }] true).events.countP
      isExitingEv = 1
    ∧ (Victor.worker_step 5 0 [mkAlarm 1 7 9 []] []
        [{ group_id := 5, active := true, alarm_count := 1 }] true).running = false
    ∧ (Victor.worker_step 5 0 [mkAlarm 1 7 9 []] []
        [{ group_id := 5, active := true, alarm_count := 1 }] true).slots
      = [{ group_id := 5, active := true, alarm_count := 1 }])
    ∧ Victor.worker_step 5 0 [mkAlarm 1 7 9 []] []
        [{ group_id := 5, active := true, alarm_count := 1 }] false
      = { alarms := [mkAlarm 1 7 9 []], removed := [], slots :=
          [{ group_id := 5, active := true, alarm_count := 1 }], running := false
          events := [] } :=
  ⟨C4_worker_exit.1 5 0 [mkAlarm 1 7 9 []] []
      [{ group_id := 5, active := true, alarm_count := 1 }] (by decide),
   C4_worker_exit.2 5 0 [mkAlarm 1 7 9 []] []
      [{ group_id := 5, active := true, alarm_count := 1 }]⟩

/-- C4 counterexample: a group-5 worker with an empty registry emits the
"exiting" event, but its slot stays `{active := true, alarm_count := 1}` —
it does NOT transition to `active = false` with `assigned_count = 0` as the
claim states (`display_thread` never writes the slot table). -/
theorem C4_counterexample :
    (Victor.worker_step 5 0 [] [] [{ group_id := 5, active := true, alarm_count := 1 }]
        true).events = [Event.exiting 5]
    ∧ (Victor.worker_step 5 0 [] [] [{ group_id := 5, active := true, alarm_count := 1 }]
        true).slots = [{ group_id := 5, active := true, alarm_count := 1 }] := by
  decide

/-- C6 (amended): in new_alarm_victor.c every successful insert signals the
monitor's condition variable at least once; in new_alarm_cond.c an insert
signals exactly when the monitor is idle (`current_alarm == 0`) or the new
alarm's deadline is earlier than the current wait target — in particular an
insert with an earlier deadline than the one being waited on always
signals — and does not signal otherwise. -/
theorem C6_insert_signal :
    (∀ (a : Alarm) (l : List Alarm) (cur : Int),
      1 ≤ (Victor.alarm_insert_full a l cur).2.2)
    ∧ (∀ t cur : Int, cur = 0 ∨ t < cur → Cond.cond_insert_signal t cur = (t, 1))
    ∧ (∀ t cur : Int, ¬(cur = 0 ∨ t < cur) → Cond.cond_insert_signal t cur = (cur, 0)) := by
  refine ⟨?_, ?_, ?_⟩
  · intro a l cur
    by_cases h : cur = 0 ∨ a.time < cur <;> simp [Victor.alarm_insert_full, h]
  · intro t cur h
    simp [Cond.cond_insert_signal, h]
  · intro t cur h
    simp only [Cond.cond_insert_signal, if_neg h]

/-- C6 witness: a victor-variant insert while the monitor waits on an
earlier alarm still signals once; a cond-variant insert with an earlier
deadline signals. -/
theorem C6_insert_signal_witness :
    1 ≤ (Victor.alarm_insert_full (mkAlarm 1 1 9 []) [] 4).2.2
    ∧ Cond.cond_insert_signal 3 7 = (3, 1) :=
  ⟨C6_insert_signal.1 (mkAlarm 1 1 9 []) [] 4,
   C6_insert_signal.2.1 3 7 (Or.inr (by decide))⟩

/-- C6 counterexample: in new_alarm_cond.c an insert whose deadline (10)
does not beat the current wait target (5) sends no signal at all, so "every
successful insert signals the Monitor's wait condition" is false for that
variant. -/
theorem C6_counterexample : (Cond.cond_insert_signal 10 5).2 = 0 := by
  decide

/-- C8: with all 10 display slots active, dispatching an alarm of a new
group leaves the slot table unchanged and surfaces no error or exhaustion
event — `create_display_thread` falls through silently (the dispatcher even
emits its ordinary "created new display thread" line and sets
`assigned_to_thread`, although no slot was allocated). This contradicts the
claim/spec requirement that exhaustion be surfaced explicitly. -/
theorem C8_pool_exhaustion_silent :
    Victor.dispatch 7 5 (List.replicate 10
        { group_id := 1, active := true, alarm_count := 2 })
      = (List.replicate 10 { group_id := 1, active := true, alarm_count := 2 },
         true, [Event.createdWorker 7 5]) := by
  decide

/-- C9: a 100-character message (well under the 128-byte bound) is stored
by `start_alarm` of new_alarm_cond.c as only its first 63 characters — the
`alarm_t.message` field is `char[64]` and the `strncpy` is bounded at 63,
although the same function builds (and never uses) a proper 128-byte
truncation and new_alarm_victor.c stores the full 100 characters. So "a
message of at most 128 bytes is stored unshortened" fails in the cond
variant. -/
theorem C9_message_truncation :
    (Cond.start_alarm 1 1 5 0 (List.replicate 100 'a')).message
        = List.replicate 63 'a'
    ∧ (List.replicate 100 'a').length = 100
    ∧ Victor.victor_store_message (List.replicate 100 'a') = List.replicate 100 'a' := by
  decide

end AlarmSpec
